import Mathlib

/-!
# Verification of the Instagram Event Monitor

A shallow embedding of the monitoring/classification/extraction orchestrator
of the Event-Monitor repository, together with proofs of its specified
properties.  Pure functions of the source are translated into Lean functions;
the SQLite tables become lists of rows with explicit state passing; fallible
operations return `Option`/`Except`.
-/

set_option maxRecDepth 10000

/-! ## String utilities

Python's `keyword in caption_lower` is substring containment; we model it on
the character list of the string.  JavaScript's `\s` whitespace class and
`trim` are modelled for the extraction-response cleaner.
-/

/-- `strContains hay needle` : `needle` occurs as a contiguous substring of
`hay` (Python's `needle in hay`). -/
def strContains (hay needle : String) : Bool :=
  hay.data.tails.any (fun t => needle.data.isPrefixOf t)

/-- Python's `str.lower()` (character-wise lowercasing). -/
def strLower (s : String) : String :=
  ⟨s.data.map Char.toLower⟩

/-! ## Classifier (`classify_event_poster_free`, src/unnamed/part_001)

The keyword lists and the scoring arithmetic are transcribed from the source.
Confidences are modelled as exact rationals (the Python expressions
`min(0.9, 0.5 + total_score * 0.1)` and `0.3 + total_score * 0.1`).
A missing caption (`None`) and an empty caption are both falsy in Python
(`if not caption`), so the caption parameter is an `Option String`.
-/

def event_keywords : List String :=
  ["event", "concert", "festival", "workshop", "seminar", "conference",
   "party", "celebration", "fundraiser", "gala", "show", "performance",
   "exhibition", "market", "fair", "competition", "tournament",
   "join us", "save the date", "tickets", "register", "rsvp",
   "admission", "entry", "doors open", "starts at", "pm", "am",
   "january", "february", "march", "april", "may", "june",
   "july", "august", "september", "october", "november", "december",
   "monday", "tuesday", "wednesday", "thursday", "friday", "saturday", "sunday"]

def poster_keywords : List String :=
  ["poster", "flyer", "announcement", "coming soon", "presenting",
   "featuring", "special guest", "live music", "food trucks",
   "family friendly", "all ages", "free admission", "ticket"]

/-- `classify_event_poster_free` from src/unnamed/part_001: keyword scoring
over the lowercased caption; returns `(is_event, confidence)`. -/
def classify_event_poster_free (caption : Option String) : Bool × ℚ :=
  match caption with
  | none => (false, 0)
  | some c =>
    if c = "" then (false, 0)
    else
      let caption_lower := strLower c
      let event_score := event_keywords.countP (fun k => strContains caption_lower k)
      let poster_score := poster_keywords.countP (fun k => strContains caption_lower k)
      let total_score := event_score + poster_score
      if total_score ≥ 3 then
        (true, min (9/10) (1/2 + (total_score : ℚ) * (1/10)))
      else if total_score ≥ 1 then
        (true, 3/10 + (total_score : ℚ) * (1/10))
      else
        (false, 1/10)

/-- The score as the specification describes it: the number of keywords from
the two fixed keyword sets occurring case-insensitively as substrings of the
caption. -/
def specKeywordScore (c : String) : Nat :=
  (event_keywords ++ poster_keywords).countP (fun k => strContains (strLower c) k)

/-- The confidence formula of the specification, as a function of the score. -/
def specConfidence (score : Nat) : ℚ :=
  if 3 ≤ score then min (9/10) (1/2 + (score : ℚ) * (1/10))
  else if 1 ≤ score then 3/10 + (score : ℚ) * (1/10)
  else 1/10

theorem specKeywordScore_eq (c : String) :
    specKeywordScore c =
      event_keywords.countP (fun k => strContains (strLower c) k) +
      poster_keywords.countP (fun k => strContains (strLower c) k) :=
  List.countP_append _ _ _

/-- C2: for every non-empty caption, the classifier scores by counting keyword
substring matches over the two fixed keyword sets; the label is `true` exactly
when the score is at least 1, and the confidence follows the piecewise formula
`min(0.9, 0.5 + 0.1*score)` for score ≥ 3, `0.3 + 0.1*score` for score 1 or 2,
and `0.1` (with label `false`) for score 0. -/
theorem classifier_keyword_scoring (c : String) (hc : c ≠ "") :
    ((classify_event_poster_free (some c)).1 = true ↔ 1 ≤ specKeywordScore c) ∧
    (classify_event_poster_free (some c)).2 = specConfidence (specKeywordScore c) := by
  have hs := specKeywordScore_eq c
  simp only [classify_event_poster_free, if_neg hc, specConfidence, ← hs]
  by_cases h3 : 3 ≤ specKeywordScore c
  · have h1 : 1 ≤ specKeywordScore c := le_trans (by norm_num) h3
    simp [ge_iff_le, h3, h1]
  · by_cases h1 : 1 ≤ specKeywordScore c
    · simp [ge_iff_le, h3, h1]
    · simp [ge_iff_le, h3, h1]

theorem classifier_keyword_scoring_witness :
    ("a concert" ≠ "") ∧
    (((classify_event_poster_free (some "a concert")).1 = true ↔
        1 ≤ specKeywordScore "a concert") ∧
      (classify_event_poster_free (some "a concert")).2 =
        specConfidence (specKeywordScore "a concert")) :=
  ⟨by decide, classifier_keyword_scoring "a concert" (by decide)⟩

/-- C3: the classifier is deterministic on the two inputs the spec fixes:
the concert caption is labelled `true` with confidence at least 0.7, and
"Beautiful sunset today" is labelled `false` with confidence exactly 0.1. -/
theorem classifier_fixed_inputs :
    (classify_event_poster_free
        (some "Join us for a concert tonight! Tickets $20, doors open 7pm")).1 = true ∧
    (7/10 : ℚ) ≤ (classify_event_poster_free
        (some "Join us for a concert tonight! Tickets $20, doors open 7pm")).2 ∧
    classify_event_poster_free (some "Beautiful sunset today") = (false, 1/10) := by
  have h1 : event_keywords.countP
        (fun k => strContains
          (strLower "Join us for a concert tonight! Tickets $20, doors open 7pm") k) +
      poster_keywords.countP
        (fun k => strContains
          (strLower "Join us for a concert tonight! Tickets $20, doors open 7pm") k) = 6 := by
    decide
  have h2 : event_keywords.countP
        (fun k => strContains (strLower "Beautiful sunset today") k) +
      poster_keywords.countP
        (fun k => strContains (strLower "Beautiful sunset today") k) = 0 := by
    decide
  have e1 : classify_event_poster_free
      (some "Join us for a concert tonight! Tickets $20, doors open 7pm") = (true, 9/10) := by
    simp only [classify_event_poster_free]
    rw [if_neg (by decide)]
    norm_num [h1, min_def]
  have e2 : classify_event_poster_free (some "Beautiful sunset today") = (false, 1/10) := by
    simp only [classify_event_poster_free]
    rw [if_neg (by decide)]
    norm_num [h2]
  refine ⟨by rw [e1], by rw [e1]; norm_num, e2⟩

/-- C9: an empty or missing caption yields label `false` with confidence `0`,
not the `0.1` returned for a non-empty caption that matches no keyword. -/
theorem classifier_empty_caption :
    classify_event_poster_free none = (false, 0) ∧
    classify_event_poster_free (some "") = (false, 0) ∧
    ∃ c, c ≠ "" ∧ classify_event_poster_free (some c) = (false, 1/10) := by
  refine ⟨rfl, by simp [classify_event_poster_free], ⟨"zzz", by decide, ?_⟩⟩
  have h : event_keywords.countP (fun k => strContains (strLower "zzz") k) +
      poster_keywords.countP (fun k => strContains (strLower "zzz") k) = 0 := by decide
  simp only [classify_event_poster_free]
  rw [if_neg (by decide)]
  norm_num [h]

/-! ## Deduplicating store (`setup_database` / `monitor_all_clubs`,
src/unnamed/part_001)

The `posts` table has `instagram_id TEXT UNIQUE`; ingestion uses
`INSERT OR IGNORE INTO posts (...)`, so a row whose `instagram_id` is already
present is left entirely untouched.  A table is a list of rows; the SQLite
`UNIQUE` constraint is the `uniquePostIds` invariant.  `cursor.rowcount > 0`
(used by the caller to count new posts) is the returned Boolean. -/

structure NormalizedPost where
  id : String
  image_url : String
  caption : String
  timestamp : Nat
  likes : Nat
  comments : Nat
  is_video : Bool
deriving DecidableEq

structure PostRow where
  club_id : Nat
  club_name : String
  club_username : String
  instagram_id : String
  image_url : String
  caption : String
  post_timestamp : Nat
  collected_at : Nat
  is_event_poster : Option Bool
  classification_confidence : Option ℚ
  classification_method : Option String
  processed : Bool
  likes : Nat
  comments : Nat
  is_video : Bool
deriving DecidableEq

/-- `INSERT OR IGNORE INTO posts (club_id, club_name, club_username,
instagram_id, image_url, caption, post_timestamp, collected_at, likes,
comments, is_video) VALUES (...)` — the columns omitted from the insert
(`is_event_poster`, `classification_confidence`, `classification_method`)
default to `NULL`, and `processed` defaults to `0`. -/
def insert_or_ignore_post (store : List PostRow) (club_id : Nat)
    (club_name club_username : String) (p : NormalizedPost) (now : Nat) :
    List PostRow × Bool :=
  if store.any (fun r => r.instagram_id == p.id) then
    (store, false)
  else
    (store ++ [{ club_id := club_id, club_name := club_name,
                 club_username := club_username, instagram_id := p.id,
                 image_url := p.image_url, caption := p.caption,
                 post_timestamp := p.timestamp, collected_at := now,
                 is_event_poster := none, classification_confidence := none,
                 classification_method := none, processed := false,
                 likes := p.likes, comments := p.comments,
                 is_video := p.is_video }], true)

/-- The `UNIQUE` constraint on `posts.instagram_id`. -/
def uniquePostIds (store : List PostRow) : Prop :=
  store.Pairwise (fun a b => a.instagram_id ≠ b.instagram_id)

theorem countP_instagram_id_le_one (i : String) (store : List PostRow)
    (h : uniquePostIds store) :
    store.countP (fun r => r.instagram_id == i) ≤ 1 := by
  induction store with
  | nil => simp
  | cons a l ih =>
    rw [List.countP_cons]
    rcases List.pairwise_cons.mp h with ⟨ha, hl⟩
    by_cases hai : a.instagram_id = i
    · have hz : l.countP (fun r => r.instagram_id == i) = 0 := by
        rw [List.countP_eq_zero]
        intro r hr
        have hne := ha r hr
        simp only [beq_iff_eq]
        rw [← hai]
        exact fun hc => hne hc.symm
      simp [hz, hai]
    · simp only [beq_iff_eq, hai]
      simpa using ih hl

theorem insert_or_ignore_post_of_any (store : List PostRow) (cid : Nat)
    (cn cu : String) (p : NormalizedPost) (now : Nat)
    (hany : store.any (fun r => r.instagram_id == p.id) = true) :
    insert_or_ignore_post store cid cn cu p now = (store, false) := by
  simp only [insert_or_ignore_post]
  rw [if_pos hany]

theorem insert_or_ignore_post_of_not_any (store : List PostRow) (cid : Nat)
    (cn cu : String) (p : NormalizedPost) (now : Nat)
    (hany : ¬ store.any (fun r => r.instagram_id == p.id) = true) :
    insert_or_ignore_post store cid cn cu p now =
      (store ++ [{ club_id := cid, club_name := cn, club_username := cu,
                   instagram_id := p.id, image_url := p.image_url,
                   caption := p.caption, post_timestamp := p.timestamp,
                   collected_at := now, is_event_poster := none,
                   classification_confidence := none,
                   classification_method := none, processed := false,
                   likes := p.likes, comments := p.comments,
                   is_video := p.is_video }], true) := by
  simp only [insert_or_ignore_post]
  rw [if_neg hany]

/-- C1: ingestion is idempotent.  Under the `UNIQUE(instagram_id)` invariant,
upserting the same normalized post twice leaves the second call a no-op
(identical store, `rowcount = 0`), exactly one row with that external id is
stored, and every pre-existing row — all its fields, classification label
included — survives unchanged. -/
theorem upsert_post_idempotent (store : List PostRow) (cid : Nat)
    (cn cu : String) (p : NormalizedPost) (t1 t2 : Nat)
    (h : uniquePostIds store) :
    (insert_or_ignore_post
        (insert_or_ignore_post store cid cn cu p t1).1 cid cn cu p t2).1 =
      (insert_or_ignore_post store cid cn cu p t1).1 ∧
    (insert_or_ignore_post
        (insert_or_ignore_post store cid cn cu p t1).1 cid cn cu p t2).2 = false ∧
    (insert_or_ignore_post store cid cn cu p t1).1.countP
        (fun r => r.instagram_id == p.id) = 1 ∧
    ∀ r ∈ store, r ∈ (insert_or_ignore_post store cid cn cu p t1).1 := by
  by_cases hmem : store.any (fun r => r.instagram_id == p.id) = true
  · have h1 := insert_or_ignore_post_of_any store cid cn cu p t1 hmem
    have hpos : 0 < store.countP (fun r => r.instagram_id == p.id) := by
      rcases List.any_eq_true.mp hmem with ⟨r, hr, hri⟩
      exact List.countP_pos_iff.mpr ⟨r, hr, hri⟩
    refine ⟨?_, ?_, ?_, ?_⟩
    · rw [h1, insert_or_ignore_post_of_any store cid cn cu p t2 hmem]
    · rw [h1, insert_or_ignore_post_of_any store cid cn cu p t2 hmem]
    · rw [h1]
      exact le_antisymm (countP_instagram_id_le_one p.id store h) hpos
    · rw [h1]; exact fun r hr => hr
  · have h1 := insert_or_ignore_post_of_not_any store cid cn cu p t1 hmem
    have hz : store.countP (fun r => r.instagram_id == p.id) = 0 := by
      rw [List.countP_eq_zero]
      intro r hr
      intro hri
      exact hmem (List.any_eq_true.mpr ⟨r, hr, hri⟩)
    have hany2 : ((insert_or_ignore_post store cid cn cu p t1).1.any
        (fun r => r.instagram_id == p.id)) = true := by
      rw [h1]
      refine List.any_eq_true.mpr ⟨_, List.mem_append_right _ (List.mem_singleton.mpr rfl), ?_⟩
      exact beq_iff_eq.mpr rfl
    have h2 := insert_or_ignore_post_of_any _ cid cn cu p t2 hany2
    refine ⟨?_, ?_, ?_, ?_⟩
    · rw [h2]
    · rw [h2]
    · rw [h1]
      simp only [List.countP_append, hz]
      simp
    · rw [h1]
      exact fun r hr => List.mem_append_left _ hr

theorem upsert_post_idempotent_witness :
    uniquePostIds [] ∧
    (insert_or_ignore_post
        (insert_or_ignore_post [] 1 "Club" "club"
          ⟨"ig1", "http://img", "caption", 5, 0, 0, false⟩ 10).1
        1 "Club" "club" ⟨"ig1", "http://img", "caption", 5, 0, 0, false⟩ 20).1 =
      (insert_or_ignore_post [] 1 "Club" "club"
        ⟨"ig1", "http://img", "caption", 5, 0, 0, false⟩ 10).1 ∧
    (insert_or_ignore_post [] 1 "Club" "club"
        ⟨"ig1", "http://img", "caption", 5, 0, 0, false⟩ 10).1.countP
      (fun r => r.instagram_id == "ig1") = 1 :=
  ⟨List.Pairwise.nil,
   (upsert_post_idempotent [] 1 "Club" "club"
      ⟨"ig1", "http://img", "caption", 5, 0, 0, false⟩ 10 20 List.Pairwise.nil).1,
   (upsert_post_idempotent [] 1 "Club" "club"
      ⟨"ig1", "http://img", "caption", 5, 0, 0, false⟩ 10 20 List.Pairwise.nil).2.2.1⟩

/-! ## The poll pass (`monitor_all_clubs`, src/unnamed/part_001)

The pass iterates over the active clubs; for each club the fetch (`get_recent_posts`)
may raise, in which case the `except` branch prints the error
(`❌ Error checking {club_name} (@{username}): {e}`) and the loop moves on to
the next club.  A successful fetch inserts every returned post with
`INSERT OR IGNORE` and updates the club's `last_checked`.  The fetcher is a
parameter returning `Except`; the printed error messages form the error log. -/

structure Club where
  id : Nat
  name : String
  username : String
  active : Bool
deriving DecidableEq

structure MonitorState where
  posts : List PostRow
  last_checked : List (Nat × Nat)
  error_log : List String
deriving DecidableEq

/-- The message printed by the `except` branch of the per-club loop. -/
def errMsg (c : Club) (e : String) : String :=
  "Error checking " ++ c.name ++ " (@" ++ c.username ++ "): " ++ e

/-- The inner `for post in posts:` loop of `monitor_all_clubs`. -/
def insert_posts (store : List PostRow) (c : Club) (ps : List NormalizedPost)
    (now : Nat) : List PostRow :=
  ps.foldl (fun s p => (insert_or_ignore_post s c.id c.name c.username p now).1) store

/-- One iteration of the `for club in clubs:` loop, with the per-club
`try`/`except` boundary. -/
def monitor_club_step (fetcher : String → Except String (List NormalizedPost))
    (now : Nat) (st : MonitorState) (c : Club) : MonitorState :=
  match fetcher c.username with
  | .ok ps =>
    { posts := insert_posts st.posts c ps now,
      last_checked := st.last_checked.map (fun e => if e.1 = c.id then (e.1, now) else e),
      error_log := st.error_log }
  | .error e =>
    { st with error_log := st.error_log ++ [errMsg c e] }

/-- `monitor_all_clubs`: fold the per-club step over the active clubs
(`SELECT ... FROM clubs WHERE active = 1`). -/
def monitor_all_clubs (fetcher : String → Except String (List NormalizedPost))
    (clubs : List Club) (now : Nat) (st : MonitorState) : MonitorState :=
  (clubs.filter (fun c => c.active)).foldl (monitor_club_step fetcher now) st

/-- A post with the given external id is present in the store. -/
def postStored (store : List PostRow) (i : String) : Prop :=
  ∃ r ∈ store, r.instagram_id = i

theorem postStored_insert_self (store : List PostRow) (cid : Nat)
    (cn cu : String) (p : NormalizedPost) (now : Nat) :
    postStored (insert_or_ignore_post store cid cn cu p now).1 p.id := by
  by_cases hmem : store.any (fun r => r.instagram_id == p.id) = true
  · rw [insert_or_ignore_post_of_any store cid cn cu p now hmem]
    rcases List.any_eq_true.mp hmem with ⟨r, hr, hri⟩
    exact ⟨r, hr, beq_iff_eq.mp hri⟩
  · rw [insert_or_ignore_post_of_not_any store cid cn cu p now hmem]
    exact ⟨_, List.mem_append_right _ (List.mem_singleton.mpr rfl), rfl⟩

theorem postStored_insert_mono (store : List PostRow) (cid : Nat)
    (cn cu : String) (p : NormalizedPost) (now : Nat) (i : String)
    (h : postStored store i) :
    postStored (insert_or_ignore_post store cid cn cu p now).1 i := by
  by_cases hmem : store.any (fun r => r.instagram_id == p.id) = true
  · rwa [insert_or_ignore_post_of_any store cid cn cu p now hmem]
  · rw [insert_or_ignore_post_of_not_any store cid cn cu p now hmem]
    rcases h with ⟨r, hr, hri⟩
    exact ⟨r, List.mem_append_left _ hr, hri⟩

theorem postStored_insert_posts_mono (c : Club) (ps : List NormalizedPost)
    (now : Nat) (i : String) :
    ∀ store : List PostRow, postStored store i →
      postStored (insert_posts store c ps now) i := by
  induction ps with
  | nil => intro store h; exact h
  | cons p rest ih =>
    intro store h
    exact ih _ (postStored_insert_mono store c.id c.name c.username p now i h)

theorem postStored_insert_posts_self (c : Club) (ps : List NormalizedPost)
    (now : Nat) :
    ∀ store : List PostRow, ∀ p ∈ ps, postStored (insert_posts store c ps now) p.id := by
  induction ps with
  | nil => intro store p hp; cases hp
  | cons q rest ih =>
    intro store p hp
    rcases List.mem_cons.mp hp with hq | hrest
    · subst hq
      exact postStored_insert_posts_mono c rest now p.id _
        (postStored_insert_self store c.id c.name c.username p now)
    · exact ih _ p hrest

theorem monitor_club_step_posts_mono
    (fetcher : String → Except String (List NormalizedPost)) (now : Nat)
    (st : MonitorState) (c : Club) (i : String)
    (h : postStored st.posts i) :
    postStored (monitor_club_step fetcher now st c).posts i := by
  unfold monitor_club_step
  cases fetcher c.username with
  | ok ps => exact postStored_insert_posts_mono c ps now i st.posts h
  | error e => exact h

theorem monitor_club_step_errors_mono
    (fetcher : String → Except String (List NormalizedPost)) (now : Nat)
    (st : MonitorState) (c : Club) (m : String)
    (h : m ∈ st.error_log) :
    m ∈ (monitor_club_step fetcher now st c).error_log := by
  unfold monitor_club_step
  cases fetcher c.username with
  | ok ps => exact h
  | error e => exact List.mem_append_left _ h

theorem monitor_fold_posts_mono
    (fetcher : String → Except String (List NormalizedPost)) (now : Nat)
    (l : List Club) (i : String) :
    ∀ st : MonitorState, postStored st.posts i →
      postStored (l.foldl (monitor_club_step fetcher now) st).posts i := by
  induction l with
  | nil => intro st h; exact h
  | cons c rest ih =>
    intro st h
    exact ih _ (monitor_club_step_posts_mono fetcher now st c i h)

theorem monitor_fold_errors_mono
    (fetcher : String → Except String (List NormalizedPost)) (now : Nat)
    (l : List Club) (m : String) :
    ∀ st : MonitorState, m ∈ st.error_log →
      m ∈ (l.foldl (monitor_club_step fetcher now) st).error_log := by
  induction l with
  | nil => intro st h; exact h
  | cons c rest ih =>
    intro st h
    exact ih _ (monitor_club_step_errors_mono fetcher now st c m h)

/-- C6: the poll pass is isolated per account.  Whatever the fetcher does on
the other accounts, every active club whose fetch succeeds has all its posts
persisted in the final store, and every active club whose fetch fails has its
error recorded in the log — a failure never aborts the remainder of the pass. -/
theorem monitor_pass_isolation
    (fetcher : String → Except String (List NormalizedPost))
    (clubs : List Club) (now : Nat) (st : MonitorState) :
    (∀ c ∈ clubs, c.active = true → ∀ ps, fetcher c.username = .ok ps →
      ∀ p ∈ ps, postStored (monitor_all_clubs fetcher clubs now st).posts p.id) ∧
    (∀ c ∈ clubs, c.active = true → ∀ e, fetcher c.username = .error e →
      errMsg c e ∈ (monitor_all_clubs fetcher clubs now st).error_log) := by
  constructor
  · intro c hc hact ps hfetch p hp
    have hcf : c ∈ clubs.filter (fun c => c.active) :=
      List.mem_filter.mpr ⟨hc, hact⟩
    rcases List.append_of_mem hcf with ⟨l1, l2, hsplit⟩
    unfold monitor_all_clubs
    rw [hsplit, List.foldl_append, List.foldl_cons]
    refine monitor_fold_posts_mono fetcher now l2 p.id _ ?_
    unfold monitor_club_step
    rw [hfetch]
    exact postStored_insert_posts_self c ps now _ p hp
  · intro c hc hact e hfetch
    have hcf : c ∈ clubs.filter (fun c => c.active) :=
      List.mem_filter.mpr ⟨hc, hact⟩
    rcases List.append_of_mem hcf with ⟨l1, l2, hsplit⟩
    unfold monitor_all_clubs
    rw [hsplit, List.foldl_append, List.foldl_cons]
    refine monitor_fold_errors_mono fetcher now l2 (errMsg c e) _ ?_
    unfold monitor_club_step
    rw [hfetch]
    exact List.mem_append_right _ (List.mem_singleton.mpr rfl)

def demoClubA : Club := ⟨1, "Alpha", "alpha", true⟩

def demoClubB : Club := ⟨2, "Beta", "beta", true⟩

def demoClubC : Club := ⟨3, "Gamma", "gamma", true⟩

/-- A fetcher whose second account raises a transient error. -/
def demoFetcher (u : String) : Except String (List NormalizedPost) :=
  if u = "beta" then Except.error "TransientFetchError"
  else Except.ok [⟨"ig-" ++ u, "http://img", "cap", 1, 0, 0, false⟩]

def demoState0 : MonitorState := ⟨[], [], []⟩

theorem monitor_pass_isolation_witness :
    postStored (monitor_all_clubs demoFetcher [demoClubA, demoClubB, demoClubC]
        7 demoState0).posts ("ig-" ++ "alpha") ∧
    postStored (monitor_all_clubs demoFetcher [demoClubA, demoClubB, demoClubC]
        7 demoState0).posts ("ig-" ++ "gamma") ∧
    errMsg demoClubB "TransientFetchError" ∈
      (monitor_all_clubs demoFetcher [demoClubA, demoClubB, demoClubC]
        7 demoState0).error_log := by
  have h := monitor_pass_isolation demoFetcher [demoClubA, demoClubB, demoClubC] 7 demoState0
  refine ⟨?_, ?_, ?_⟩
  · exact h.1 demoClubA (List.Mem.head _) rfl _ rfl _ (List.Mem.head _)
  · exact h.1 demoClubC (List.Mem.tail _ (List.Mem.tail _ (List.Mem.head _))) rfl
      _ rfl _ (List.Mem.head _)
  · exact h.2 demoClubB (List.Mem.tail _ (List.Mem.head _)) rfl _ rfl

/-! ## Duration formatter (`describeMinutes`)

The helper exists twice: once in the shared format utilities
(src/unnamed/part_004) and once inline in the dashboard `App` component
(src/frontend/src/App.tsx).  Both are transcribed below; the claim is that
they agree on every input (`null` or a natural number of minutes — JS
`Math.floor` and `%` coincide with `Nat` division on naturals). -/

/-- `describeMinutes` from the shared format utilities (src/unnamed/part_004). -/
def describeMinutes (minutes : Option Nat) : String :=
  match minutes with
  | none => "—"
  | some m =>
    if m < 60 then s!"{m} min"
    else
      let minutesInDay := 60 * 24
      let days := m / minutesInDay
      let remainingAfterDays := m % minutesInDay
      let hours := remainingAfterDays / 60
      let remainingMinutes := remainingAfterDays % 60
      if days > 0 then
        let dayPart := s!"{days} d"
        if hours > 0 then
          if remainingMinutes > 0 then s!"{dayPart} {hours} h {remainingMinutes} min"
          else s!"{dayPart} {hours} h"
        else
          if remainingMinutes > 0 then s!"{dayPart} {remainingMinutes} min"
          else dayPart
      else
        if hours > 0 then
          if remainingMinutes > 0 then s!"{hours} h {remainingMinutes} min"
          else s!"{hours} h"
        else s!"{m} min"

/-- The inline `describeMinutes` of the dashboard `App` component
(src/frontend/src/App.tsx). -/
def describeMinutesApp (minutes : Option Nat) : String :=
  match minutes with
  | none => "—"
  | some m =>
    if m < 60 then s!"{m} min"
    else
      let minutesInDay := 60 * 24
      let days := m / minutesInDay
      let remainingAfterDays := m % minutesInDay
      let hours := remainingAfterDays / 60
      let remainingMinutes := remainingAfterDays % 60
      if days > 0 then
        let dayPart := s!"{days} d"
        if hours > 0 then
          if remainingMinutes > 0 then s!"{dayPart} {hours} h {remainingMinutes} min"
          else s!"{dayPart} {hours} h"
        else
          if remainingMinutes > 0 then s!"{dayPart} {remainingMinutes} min"
          else dayPart
      else
        if hours > 0 then
          if remainingMinutes > 0 then s!"{hours} h {remainingMinutes} min"
          else s!"{hours} h"
        else s!"{m} min"

/-- C10: the two copies of the duration formatter — the shared format utility
and the inline one in the dashboard `App` component — agree on every input. -/
theorem describeMinutes_copies_equal :
    ∀ m : Option Nat, describeMinutes m = describeMinutesApp m := by
  intro m
  cases m <;> rfl

/-! ## Extraction response parsing (`processWithClaude`, src/unnamed/part_000)

The textual AI response is cleaned with
`responseText.replace(/```json\s?/g, "").replace(/```\s?/g, "").trim()` and
parsed with `JSON.parse`; if that throws, the substring matched by the greedy
regex `/\{[\s\S]*\}/` (from the first `{` through the last `}`) is parsed as a
fallback, and an extraction failure is raised only when neither parse
succeeds.  `JSON.parse` is a platform library, so the pipeline is
parameterized by an arbitrary parse function; the replace loop carries a fuel
argument (the string length) so that it stays structurally recursive. -/

/-- JavaScript's `\s` character class. -/
def isJsWs (c : Char) : Bool :=
  c = ' ' || c = '\t' || c = '\n' || c = '\r' || c = '\x0b' || c = '\x0c' ||
  c = ' ' || c = ' ' ||
  (' ' ≤ c && c ≤ ' ') ||
  c = ' ' || c = ' ' || c = ' ' || c = ' ' ||
  c = '　' || c = '﻿'

/-- One global, left-to-right, non-overlapping `replace(tok + optional \s, "")`
pass; `fuel` bounds the recursion by the input length. -/
def replaceTokGo (tok : List Char) : Nat → List Char → List Char
  | _, [] => []
  | 0, s => s
  | Nat.succ fuel, c :: cs =>
    if tok.isPrefixOf (c :: cs) then
      match cs.drop (tok.length - 1) with
      | [] => []
      | d :: ds =>
        if isJsWs d then replaceTokGo tok fuel ds
        else replaceTokGo tok fuel (d :: ds)
    else c :: replaceTokGo tok fuel cs

/-- `s.replace(/tok\s?/g, "")`. -/
def replaceAllTok (tok : List Char) (s : List Char) : List Char :=
  replaceTokGo tok s.length s

/-- JavaScript `String.prototype.trim` (strips `\s` from both ends). -/
def jsTrim (s : List Char) : List Char :=
  ((s.dropWhile isJsWs).reverse.dropWhile isJsWs).reverse

/-- The cleaned response:
`responseText.replace(/```json\s?/g, "").replace(/```\s?/g, "").trim()`. -/
def cleanedOf (s : String) : String :=
  ⟨jsTrim (replaceAllTok "```".data (replaceAllTok "```json".data s.data))⟩

/-- `responseText.match(/\{[\s\S]*\}/)`: the greedy match runs from the first
`{` to the last `}`; `none` when there is no such span. -/
def jsonMatch (s : List Char) : Option (List Char) :=
  match s.dropWhile (fun c => !(c = '{')) with
  | [] => none
  | c :: cs =>
    match (c :: cs).reverse.dropWhile (fun d => !(d = '}')) with
    | [] => none
    | r :: rs => some (r :: rs).reverse

/-- The parse pipeline of `processWithClaude`: clean, direct parse, fallback
parse of the brace span, failure (`none`) only when both parses fail. -/
def extract_json_response {α : Type} (parse : String → Option α)
    (responseText : String) : Option α :=
  let cleaned := cleanedOf responseText
  match parse cleaned with
  | some v => some v
  | none =>
    match jsonMatch cleaned.data with
    | some sub => parse ⟨sub⟩
    | none => none

/-- C7: for every textual response, the parser first strips code fences and
trims, then parses directly; on direct-parse failure it parses the span from
the first top-level `{` through the final `}` of the cleaned text, and it
fails only when neither parse succeeds. -/
theorem extraction_parse_fallback {α : Type} (parse : String → Option α)
    (s : String) :
    (∀ v, parse (cleanedOf s) = some v → extract_json_response parse s = some v) ∧
    (parse (cleanedOf s) = none →
      ∀ sub, jsonMatch (cleanedOf s).data = some sub →
        extract_json_response parse s = parse ⟨sub⟩) ∧
    (extract_json_response parse s = none ↔
      (parse (cleanedOf s) = none ∧
        ∀ sub, jsonMatch (cleanedOf s).data = some sub → parse ⟨sub⟩ = none)) := by
  refine ⟨?_, ?_, ?_⟩
  · intro v hv
    simp [extract_json_response, hv]
  · intro hd sub hm
    simp [extract_json_response, hd, hm]
  · constructor
    · intro hn
      cases hp : parse (cleanedOf s) with
      | some v => simp [extract_json_response, hp] at hn
      | none =>
        refine ⟨rfl, ?_⟩
        intro sub hm
        simp only [extract_json_response, hp, hm] at hn
        exact hn
    · rintro ⟨hd, hall⟩
      cases hm : jsonMatch (cleanedOf s).data with
      | some sub => simp [extract_json_response, hd, hm, hall sub hm]
      | none => simp [extract_json_response, hd, hm]

/-- A concrete stand-in for `JSON.parse` success on the two strings the
witness exercises. -/
def demoParse (t : String) : Option Nat :=
  if t = "{}" then some 0 else none

theorem extraction_parse_fallback_witness :
    (demoParse (cleanedOf "```json\n{}\n```") = some 0 ∧
      extract_json_response demoParse "```json\n{}\n```" = some 0) ∧
    (demoParse (cleanedOf "Result: {} done") = none ∧
      jsonMatch (cleanedOf "Result: {} done").data = some "{}".data ∧
      extract_json_response demoParse "Result: {} done" = demoParse "{}") := by
  constructor
  · refine ⟨by decide, ?_⟩
    exact (extraction_parse_fallback demoParse "```json\n{}\n```").1 0 (by decide)
  · refine ⟨by decide, by decide, ?_⟩
    have h := (extraction_parse_fallback demoParse "Result: {} done").2.1
      (by decide) "{}".data (by decide)
    exact h

/-! ## Classification workflow modes (C5)

The per-account/global `manual`/`auto` workflow lives in the backend service
(`backend/app/services/classifier.py` and `monitor.py` per the README), which
is not under src/ — only the dashboard's `classification_mode` declarations
and the README describe it.  The pass is therefore modelled from the spec. -/

inductive WorkMode where
  | manual
  | auto
deriving DecidableEq

structure Account where
  id : Nat
  name : String
  username : String
  active : Bool
  classification_mode : WorkMode
deriving DecidableEq

def findAccount (accounts : List Account) (cid : Nat) : Option Account :=
  accounts.find? (fun a => a.id == cid)

/-- Modelled from the spec: the effective workflow mode of a post — its
account's `classification_mode`, falling back to the global mode when the
account is unknown ("depending on per-account and global workflow mode"). -/
def effectiveMode (accounts : List Account) (globalMode : WorkMode)
    (p : PostRow) : WorkMode :=
  match findAccount accounts p.club_id with
  | some a => a.classification_mode
  | none => globalMode

/-- Modelled from the spec: one post of the automatic classification pass —
the heuristic runs only on a still-unlabelled post whose effective mode is
`auto`; every other post is untouched. -/
def autoClassifyStep (accounts : List Account) (globalMode : WorkMode)
    (p : PostRow) : PostRow :=
  if p.is_event_poster = none ∧
      effectiveMode accounts globalMode p = WorkMode.auto then
    let r := classify_event_poster_free (some p.caption)
    { p with is_event_poster := some r.1,
             classification_confidence := some r.2,
             classification_method := some "keyword" }
  else p

/-- Modelled from the spec: `auto_classify_posts` of the backend service —
"Applied automatically only to accounts/global mode set to `auto`; posts
under `manual` mode remain `label=null` until a human calls
`classify_manual`." -/
def auto_classify_posts (accounts : List Account) (globalMode : WorkMode)
    (posts : List PostRow) : List PostRow :=
  posts.map (autoClassifyStep accounts globalMode)

/-- C5: the automatic pass never touches a post of a manual-mode account —
the post survives the pass completely unchanged, its classification label
(`null` included) untouched. -/
theorem manual_mode_posts_not_autoclassified (accounts : List Account)
    (globalMode : WorkMode) (posts : List PostRow) (a : Account) (p : PostRow)
    (ha : findAccount accounts p.club_id = some a)
    (hm : a.classification_mode = WorkMode.manual)
    (hp : p ∈ posts) :
    autoClassifyStep accounts globalMode p = p ∧
    p ∈ auto_classify_posts accounts globalMode posts := by
  have hmode : effectiveMode accounts globalMode p = WorkMode.manual := by
    unfold effectiveMode
    rw [ha]
    exact hm
  have hstep : autoClassifyStep accounts globalMode p = p := by
    unfold autoClassifyStep
    rw [if_neg]
    rintro ⟨-, hauto⟩
    rw [hmode] at hauto
    cases hauto
  exact ⟨hstep, hstep ▸ List.mem_map_of_mem _ hp⟩

def demoManualAccount : Account := ⟨2, "Beta", "beta", true, WorkMode.manual⟩

def demoManualPost : PostRow :=
  { club_id := 2, club_name := "Beta", club_username := "beta",
    instagram_id := "ig-b1", image_url := "http://img", caption := "concert",
    post_timestamp := 1, collected_at := 2, is_event_poster := none,
    classification_confidence := none, classification_method := none,
    processed := false, likes := 0, comments := 0, is_video := false }

theorem manual_mode_not_autoclassified_witness :
    findAccount [demoManualAccount] demoManualPost.club_id =
      some demoManualAccount ∧
    demoManualAccount.classification_mode = WorkMode.manual ∧
    autoClassifyStep [demoManualAccount] WorkMode.auto demoManualPost =
      demoManualPost ∧
    demoManualPost ∈
      auto_classify_posts [demoManualAccount] WorkMode.auto [demoManualPost] :=
  ⟨rfl, rfl,
   (manual_mode_posts_not_autoclassified [demoManualAccount] WorkMode.auto
      [demoManualPost] demoManualAccount demoManualPost rfl rfl
      (List.Mem.head _)).1,
   (manual_mode_posts_not_autoclassified [demoManualAccount] WorkMode.auto
      [demoManualPost] demoManualAccount demoManualPost rfl rfl
      (List.Mem.head _)).2⟩

/-! ## ExtractedEvent storage with overwrite control (C4)

The extraction coordinator with its `overwrite` opt-out lives in the backend
(`backend/app` — the README: "existing JSON is overwritten unless
`overwrite=false` is supplied on the endpoint"), which is not under src/;
the part_001 design-doc prototype has no overwrite parameter.  The store
operation is therefore modelled from the spec: at most one live
ExtractedEvent per post; re-extraction overwrites unless the caller opts
out. -/

structure ExtractedEventRow where
  post_id : Nat
  event_data_json : String
  extraction_confidence : ℚ
  created_at : Nat
deriving DecidableEq

/-- Modelled from the spec: `save_extracted_event` of the backend extraction
coordinator — "by default a new extraction replaces any existing
ExtractedEvent for the post; callers may request skip-if-exists behavior". -/
def save_extracted_event (events : List ExtractedEventRow) (post_id : Nat)
    (payload : String) (confidence : ℚ) (now : Nat) (overwrite : Bool) :
    List ExtractedEventRow :=
  if events.any (fun r => r.post_id == post_id) then
    if overwrite then
      events.filter (fun r => !(r.post_id == post_id)) ++
        [⟨post_id, payload, confidence, now⟩]
    else events
  else events ++ [⟨post_id, payload, confidence, now⟩]

/-- The invariant: at most one live ExtractedEvent per post. -/
def atMostOnePerPost (events : List ExtractedEventRow) : Prop :=
  ∀ pid : Nat, events.countP (fun r => r.post_id == pid) ≤ 1

theorem save_extracted_event_overwrite_eq (l : List ExtractedEventRow)
    (pid : Nat) (pl : String) (c : ℚ) (t : Nat)
    (hany : l.any (fun r => r.post_id == pid) = true) :
    save_extracted_event l pid pl c t true =
      l.filter (fun r => !(r.post_id == pid)) ++ [⟨pid, pl, c, t⟩] := by
  unfold save_extracted_event
  rw [if_pos hany, if_pos rfl]

theorem save_extracted_event_filter_self (events : List ExtractedEventRow)
    (pid q : Nat) :
    (events.filter (fun r => !(r.post_id == pid))).countP
        (fun r => r.post_id == q) ≤
      events.countP (fun r => r.post_id == q) :=
  List.Sublist.countP_le _ (List.filter_sublist _)

/-- C4: the invariant is preserved by every call; a second extraction with
`overwrite = true` leaves exactly the new payload as the post's only row;
and when a row exists, a call with `overwrite = false` is a no-op. -/
theorem extraction_overwrite_semantics (events : List ExtractedEventRow)
    (pid : Nat) (pl1 pl2 : String) (c1 c2 : ℚ) (t1 t2 : Nat) (ow : Bool)
    (h : atMostOnePerPost events) :
    atMostOnePerPost (save_extracted_event events pid pl1 c1 t1 ow) ∧
    (save_extracted_event (save_extracted_event events pid pl1 c1 t1 true)
        pid pl2 c2 t2 true).filter (fun r => r.post_id == pid) =
      [⟨pid, pl2, c2, t2⟩] ∧
    (events.any (fun r => r.post_id == pid) = true →
      save_extracted_event events pid pl2 c2 t2 false = events) := by
  have hfilter_zero : ∀ (l : List ExtractedEventRow),
      (l.filter (fun r => !(r.post_id == pid))).countP
        (fun r => r.post_id == pid) = 0 := by
    intro l
    rw [List.countP_eq_zero]
    intro r hr
    have := (List.mem_filter.mp hr).2
    simp only [Bool.not_eq_true'] at this
    simp [this]
  refine ⟨?_, ?_, ?_⟩
  · intro q
    unfold save_extracted_event
    by_cases hany : events.any (fun r => r.post_id == pid) = true
    · rw [if_pos hany]
      cases ow with
      | false => exact h q
      | true =>
        rw [if_pos rfl, List.countP_append]
        by_cases hq : q = pid
        · subst hq
          rw [hfilter_zero]
          simp
        · have hle := save_extracted_event_filter_self events pid q
          have hnew : ([(⟨pid, pl1, c1, t1⟩ : ExtractedEventRow)].countP
              (fun r => r.post_id == q)) = 0 := by
            simp [List.countP_cons]
            exact fun hc => absurd hc.symm hq
          rw [hnew]
          exact le_trans (by omega) (le_trans hle (h q))
    · rw [if_neg hany, List.countP_append]
      by_cases hq : q = pid
      · subst hq
        have hz : events.countP (fun r => r.post_id == q) = 0 := by
          rw [List.countP_eq_zero]
          intro r hr hrq
          exact hany (List.any_eq_true.mpr ⟨r, hr, hrq⟩)
        rw [hz]
        simp
      · have hnew : ([(⟨pid, pl1, c1, t1⟩ : ExtractedEventRow)].countP
            (fun r => r.post_id == q)) = 0 := by
          simp [List.countP_cons]
          exact fun hc => absurd hc.symm hq
        rw [hnew]
        have := h q
        omega
  · have hrow1 : ∃ l : List ExtractedEventRow,
        save_extracted_event events pid pl1 c1 t1 true =
          l ++ [⟨pid, pl1, c1, t1⟩] := by
      unfold save_extracted_event
      by_cases hany : events.any (fun r => r.post_id == pid) = true
      · rw [if_pos hany, if_pos rfl]
        exact ⟨_, rfl⟩
      · rw [if_neg hany]
        exact ⟨_, rfl⟩
    rcases hrow1 with ⟨l, hl⟩
    have hany1 : (save_extracted_event events pid pl1 c1 t1 true).any
        (fun r => r.post_id == pid) = true := by
      rw [hl]
      exact List.any_eq_true.mpr
        ⟨_, List.mem_append_right _ (List.mem_singleton.mpr rfl), by simp⟩
    rw [save_extracted_event_overwrite_eq _ pid pl2 c2 t2 hany1,
      List.filter_append]
    have hz : ((save_extracted_event events pid pl1 c1 t1 true).filter
        (fun r => !(r.post_id == pid))).filter (fun r => r.post_id == pid) = [] := by
      rw [List.filter_eq_nil_iff]
      intro r hr
      have := (List.mem_filter.mp hr).2
      simp only [Bool.not_eq_true'] at this
      simp [this]
    rw [hz]
    simp
  · intro hany
    unfold save_extracted_event
    rw [if_pos hany]
    rfl

theorem extraction_overwrite_witness :
    atMostOnePerPost [] ∧
    (save_extracted_event (save_extracted_event [] 7 "payload1" (1/2) 10 true)
        7 "payload2" (3/4) 20 true).filter (fun r => r.post_id == 7) =
      [⟨7, "payload2", 3/4, 20⟩] ∧
    atMostOnePerPost (save_extracted_event [] 7 "payload1" (1/2) 10 true) := by
  have h0 : atMostOnePerPost ([] : List ExtractedEventRow) := by
    intro pid
    simp
  refine ⟨h0, ?_, ?_⟩
  · exact (extraction_overwrite_semantics [] 7 "payload1" "payload2"
      (1/2) (3/4) 10 20 true h0).2.1
  · exact (extraction_overwrite_semantics [] 7 "payload1" "payload2"
      (1/2) (3/4) 10 20 true h0).1

/-! ## Fetcher Selector and rate-limit backoff (C8)

The Selector and the Rate-Limit/Backoff Tracker live in the backend monitoring
service, which is not under src/ — the dashboard's `MonitorStatus` interface
(src/frontend/src/App.tsx) only declares the `is_rate_limited` /
`rate_limit_until` fields it reports.  The selector is therefore modelled
from the spec (§4.2–§4.3). -/

inductive FetchOutcome where
  | ok (posts : List NormalizedPost)
  | rateLimited
  | fetchError (msg : String)
deriving DecidableEq

structure BackoffState where
  is_rate_limited : Bool
  rate_limit_until : Option Nat
deriving DecidableEq

/-- Modelled from the spec: "any adapter call that matches the … signature
sets `is_rate_limited=true` and computes
`rate_limit_until = now + backoff_window`". -/
def recordRateLimit (now window : Nat) : BackoffState :=
  { is_rate_limited := true, rate_limit_until := some (now + window) }

/-- The backoff deadline is in force; "the flag clears automatically once
`now >= rate_limit_until`". -/
def backoffActive (st : BackoffState) (now : Nat) : Bool :=
  st.is_rate_limited &&
    (match st.rate_limit_until with
     | some t => decide (now < t)
     | none => false)

structure SelectorOutcome where
  result : Except String (List NormalizedPost)
  state : BackoffState
  usedActor : Bool

/-- Modelled from the spec: the `auto`-mode Selector — prefer the
scraping-library adapter; on its rate-limit signature record the backoff
deadline and fall back to the actor adapter within the same pass; while the
backoff deadline is in force go straight to the actor adapter; and every
adapter call matching the signature records `now + backoff_window`. -/
def selector_fetch_auto (library actor : String → FetchOutcome)
    (window now : Nat) (st : BackoffState) (handle : String) :
    SelectorOutcome :=
  if backoffActive st now then
    match actor handle with
    | .ok ps => ⟨.ok ps, st, true⟩
    | .rateLimited => ⟨.error "rate limited", recordRateLimit now window, true⟩
    | .fetchError m => ⟨.error m, st, true⟩
  else
    match library handle with
    | .ok ps => ⟨.ok ps, st, false⟩
    | .rateLimited =>
      match actor handle with
      | .ok ps => ⟨.ok ps, recordRateLimit now window, true⟩
      | .rateLimited => ⟨.error "rate limited", recordRateLimit now window, true⟩
      | .fetchError m => ⟨.error m, recordRateLimit now window, true⟩
    | .fetchError m => ⟨.error m, st, false⟩

/-- C8: when the library adapter raises the rate-limit signature outside an
active backoff, the Selector invokes the actor adapter within the same pass
and records `is_rate_limited = true` with
`rate_limit_until = now + backoff_window`, a deadline strictly greater than
`now`; and any later call matching the signature under an active backoff
records the same `now + backoff_window` deadline for its own `now`. -/
theorem selector_backoff_fallback (library actor : String → FetchOutcome)
    (window now : Nat) (st : BackoffState) (handle : String)
    (hw : 0 < window)
    (hb : backoffActive st now = false)
    (hl : library handle = FetchOutcome.rateLimited) :
    (selector_fetch_auto library actor window now st handle).usedActor = true ∧
    (selector_fetch_auto library actor window now st
        handle).state.is_rate_limited = true ∧
    (selector_fetch_auto library actor window now st
        handle).state.rate_limit_until = some (now + window) ∧
    now < now + window ∧
    (∀ st2 now2, backoffActive st2 now2 = true →
      actor handle = FetchOutcome.rateLimited →
      (selector_fetch_auto library actor window now2 st2 handle).state =
        recordRateLimit now2 window) := by
  have hmain : ∀ P : SelectorOutcome → Prop,
      (∀ o : SelectorOutcome, o.state = recordRateLimit now window ∧
        o.usedActor = true → P o) →
      P (selector_fetch_auto library actor window now st handle) := by
    intro P hP
    unfold selector_fetch_auto
    rw [hb]
    simp only [Bool.false_eq_true, if_false, hl]
    cases actor handle with
    | ok ps => exact hP _ ⟨rfl, rfl⟩
    | rateLimited => exact hP _ ⟨rfl, rfl⟩
    | fetchError m => exact hP _ ⟨rfl, rfl⟩
  refine ⟨?_, ?_, ?_, by omega, ?_⟩
  · exact hmain (fun o => o.usedActor = true) (fun o ho => ho.2)
  · exact hmain (fun o => o.state.is_rate_limited = true)
      (fun o ho => by
        show o.state.is_rate_limited = true
        rw [ho.1]
        rfl)
  · exact hmain (fun o => o.state.rate_limit_until = some (now + window))
      (fun o ho => by
        show o.state.rate_limit_until = some (now + window)
        rw [ho.1]
        rfl)
  · intro st2 now2 hb2 ha
    unfold selector_fetch_auto
    rw [hb2]
    simp only [if_true, ha]

def demoLibraryAdapter (_ : String) : FetchOutcome := FetchOutcome.rateLimited

def demoActorAdapter (u : String) : FetchOutcome :=
  FetchOutcome.ok [⟨"ig-" ++ u, "http://img", "cap", 1, 0, 0, false⟩]

theorem selector_backoff_fallback_witness :
    (0 < 30 ∧ backoffActive ⟨false, none⟩ 100 = false ∧
      demoLibraryAdapter "alpha" = FetchOutcome.rateLimited) ∧
    (selector_fetch_auto demoLibraryAdapter demoActorAdapter 30 100
        ⟨false, none⟩ "alpha").usedActor = true ∧
    (selector_fetch_auto demoLibraryAdapter demoActorAdapter 30 100
        ⟨false, none⟩ "alpha").state.is_rate_limited = true ∧
    (selector_fetch_auto demoLibraryAdapter demoActorAdapter 30 100
        ⟨false, none⟩ "alpha").state.rate_limit_until = some 130 ∧
    (100 : Nat) < 130 := by
  have h := selector_backoff_fallback demoLibraryAdapter demoActorAdapter
    30 100 ⟨false, none⟩ "alpha" (by decide) (by decide) rfl
  exact ⟨⟨by decide, by decide, rfl⟩, h.1, h.2.1, h.2.2.1, h.2.2.2.1⟩
